import Mathlib

/-!
Shallow embedding of the command-line task manager (`src/main.cpp`).

The program keeps a vector of tasks and an id counter, persists them as
JSON to a backing file on every mutation, and runs a read-eval-print loop
over standard input.  C++ `int` values are modelled as `Int` (signed
overflow is undefined behaviour in the source, so only the mathematical
values are defined behaviour); `std::vector<Task>` as `List Task`; the
JSON documents built and consumed via the nlohmann library as an
inductive `Json` value; exceptions as `Except Unit`.  File writes are
recorded as the list of JSON documents the program would serialize, so
"the backing file is unchanged" is "no write was issued".
-/

namespace Todo

/-- Model of the nlohmann JSON values the program builds and reads.
Only the shapes the program can produce or distinguish are needed:
null, booleans, integers, strings, arrays and objects. -/
inductive Json where
  | null : Json
  | bool (b : Bool) : Json
  | int (n : Int) : Json
  | str (s : String) : Json
  | arr (items : List Json) : Json
  | obj (fields : List (String × Json)) : Json

/-- `j.push_back x` in nlohmann json: a null value becomes a singleton
array, an array is extended at the back.  (On any other type the library
throws; `save_tasks` only ever starts from null, so that case is
unreachable there and modelled as the identity.) -/
def jsonPush (j : Json) (x : Json) : Json :=
  match j with
  | .null => .arr [x]
  | .arr l => .arr (l ++ [x])
  | j => j

/-- `j.at(key)` on the model: field lookup on an object, a thrown
exception (`.error`) on a missing key or a non-object. -/
def Json.atKey (j : Json) (k : String) : Except Unit Json :=
  match j with
  | .obj fs =>
    match fs.lookup k with
    | some v => .ok v
    | none => .error ()
  | _ => .error ()

/-- Implicit conversion of a json value to `int`: throws unless the
value is a number. -/
def Json.asInt : Json → Except Unit Int
  | .int n => .ok n
  | _ => .error ()

/-- Implicit conversion of a json value to `std::string`. -/
def Json.asStr : Json → Except Unit String
  | .str s => .ok s
  | _ => .error ()

/-- Implicit conversion of a json value to `bool`. -/
def Json.asBool : Json → Except Unit Bool
  | .bool b => .ok b
  | _ => .error ()

/-- Range-based iteration over a json value, as used by `load_tasks`:
an array yields its elements, null yields nothing, an object yields its
field values, a primitive yields itself once. -/
def Json.items : Json → List Json
  | .arr xs => xs
  | .null => []
  | .obj fs => fs.map (fun f => f.2)
  | j => [j]

/-- The key list of an object (`none` for non-objects). -/
def Json.keysOf : Json → Option (List String)
  | .obj fs => some (fs.map (fun f => f.1))
  | _ => none

/-- `struct Task` from `src/main.cpp`: id, description, completion flag
and priority (1 = high, 2 = medium, 3 = low). -/
structure Task where
  id : Int
  description : String
  completed : Bool
  priority : Int
deriving DecidableEq, Repr

/-- `Task::to_json`: the object with fields id, description, completed,
priority. -/
def Task.to_json (t : Task) : Json :=
  .obj [("id", .int t.id), ("description", .str t.description),
        ("completed", .bool t.completed), ("priority", .int t.priority)]

/-- `Task::from_json`: reads the four fields with `j.at`, any failure
(missing key, wrong type, non-object) is a thrown exception. -/
def Task.from_json (j : Json) : Except Unit Task := do
  let i ← (← j.atKey "id").asInt
  let d ← (← j.atKey "description").asStr
  let c ← (← j.atKey "completed").asBool
  let p ← (← j.atKey "priority").asInt
  pure ⟨i, d, c, p⟩

/-- The state of `class TaskManager`: the task vector and the `next_id`
counter. -/
structure TaskManager where
  tasks : List Task
  next_id : Int
deriving DecidableEq, Repr

/-- `TaskManager::add_task`: appends a task carrying the current
`next_id` and increments the counter. -/
def add_task (m : TaskManager) (description : String) (priority : Int) : TaskManager :=
  ⟨m.tasks ++ [⟨m.next_id, description, false, priority⟩], m.next_id + 1⟩

/-- `std::find_if` + in-place update in `mark_done`: sets `completed`
on the first task with the given id; `none` when no task matches. -/
def markFirst (id : Int) : List Task → Option (List Task)
  | [] => none
  | t :: ts =>
    if t.id = id then some ({ t with completed := true } :: ts)
    else
      match markFirst id ts with
      | some ts2 => some (t :: ts2)
      | none => none

/-- `TaskManager::mark_done`: returns the new state and whether a task
was found (the found case also persists; persistence is recorded by the
dispatcher). -/
def mark_done (m : TaskManager) (id : Int) : TaskManager × Bool :=
  match markFirst id m.tasks with
  | some ts => (⟨ts, m.next_id⟩, true)
  | none => (m, false)

/-- `TaskManager::delete_task`: `std::remove_if` + `erase` removes every
task whose id matches, keeping the rest in order; the success flag is
whether anything was removed (`it != tasks.end()`). -/
def delete_task (m : TaskManager) (id : Int) : TaskManager × Bool :=
  if m.tasks.any (fun t => t.id = id) then
    (⟨m.tasks.filter (fun t => t.id ≠ id), m.next_id⟩, true)
  else (m, false)

/-- `TaskManager::save_tasks`: starts from a default-constructed (null)
json value and `push_back`s each task's object, producing the document
written to the backing file. -/
def save_tasks (m : TaskManager) : Json :=
  m.tasks.foldl (fun j t => jsonPush j t.to_json) Json.null

/-- The loop body of `TaskManager::load_tasks` under the surrounding
try/catch: items are converted and appended one by one while `next_id`
is bumped past each id; the first conversion failure abandons everything
(`tasks.clear(); next_id = 1`). -/
def loadItems : List Json → Int → List Task → TaskManager
  | [], nid, acc => ⟨acc, nid⟩
  | j :: rest, nid, acc =>
    match Task.from_json j with
    | .ok t => loadItems rest (if nid ≤ t.id then t.id + 1 else nid) (acc ++ [t])
    | .error _ => ⟨[], 1⟩

/-- `TaskManager::load_tasks` on a file that exists: `.error` is a file
whose content does not parse as JSON (`file >> j` throws), `.ok j` a
parsed document. -/
def load_tasks (file : Except Unit Json) : TaskManager :=
  match file with
  | .error _ => ⟨[], 1⟩
  | .ok j => loadItems j.items 1 []

/-- The `TaskManager` constructor: `none` is an absent backing file
(the fresh empty state is saved immediately), otherwise the file's
content is loaded.  The second component records the file writes. -/
def startup : Option (Except Unit Json) → TaskManager × List Json
  | none => (⟨[], 1⟩, [save_tasks ⟨[], 1⟩])
  | some f => (load_tasks f, [])

/-- The comparator handed to `std::sort` in `list_tasks`, weakened to
its reflexive closure (priority ascending, then id ascending). -/
def taskLe (a b : Task) : Prop :=
  a.priority < b.priority ∨ (a.priority = b.priority ∧ a.id ≤ b.id)

instance : DecidableRel taskLe := fun a b => by
  unfold taskLe; infer_instance

instance : IsTotal Task taskLe where
  total a b := by unfold taskLe; omega

instance : IsTrans Task taskLe where
  trans a b c hab hbc := by unfold taskLe at *; omega

/-- The sorted copy `std::sort` produces in `list_tasks`, modelled by a
deterministic sort with the same ordering. -/
def sortTasks (l : List Task) : List Task :=
  l.insertionSort taskLe

/-- The priority column printed by `list_tasks`. -/
def priorityStr (p : Int) : String :=
  if p = 1 then "HIGH" else if p = 2 then "MEDIUM" else if p = 3 then "LOW" else "UNKNOWN"

/-- One printed row of `list_tasks`. -/
def renderTask (t : Task) : String :=
  "ID: " ++ toString t.id ++ " | " ++ (if t.completed then "[DONE]" else "[PENDING]")
    ++ " | PRIORITY: " ++ priorityStr t.priority ++ " | " ++ t.description

/-- `TaskManager::list_tasks`, as the list of lines it prints: the
"No tasks found." message exactly when the stored collection is empty,
otherwise a header, then the sorted rows with completed tasks skipped
when `show_completed` is false, then a blank line. -/
def list_tasks (m : TaskManager) (show_completed : Bool) : List String :=
  if m.tasks = [] then ["No tasks found."]
  else
    "" :: "TASK LIST" :: "---------" ::
      ((sortTasks m.tasks).filter
        (fun t => show_completed || !t.completed)).map renderTask ++ [""]

/-- `parse_priority` from `src/main.cpp`: "high" and "low" map to 1 and
3, everything else to 2. -/
def parse_priority (priority_str : String) : Int :=
  if priority_str = "high" then 1 else if priority_str = "low" then 3 else 2

/-- The argument loop of the `add` command (tokens after the first
description token): a "-p" token followed by another token consumes that
token as the priority value; any other token, including a "-p" with
nothing after it, is appended to the description with a space. -/
def addLoop : List String → String → Int → String × Int
  | [], desc, prio => (desc, prio)
  | [tok], desc, prio => (desc ++ " " ++ tok, prio)
  | tok :: v :: rest, desc, prio =>
    if tok = "-p" then addLoop rest desc (parse_priority v)
    else addLoop (v :: rest) (desc ++ " " ++ tok) prio

/-- The whitespace characters `std::isspace` recognizes in the default
locale. -/
def isSpaceChar (c : Char) : Bool :=
  c = ' ' || c = '\t' || c = '\n' || c = Char.ofNat 11 || c = Char.ofNat 12 || c = '\r'

/-- The digit-consuming core of `std::stoi` (base 10): accumulates the
leading digits and returns the unconsumed remainder. -/
def digitsToNat (acc : Nat) : List Char → Nat × List Char
  | [] => (acc, [])
  | c :: cs =>
    if c.isDigit then digitsToNat (acc * 10 + (c.toNat - 48)) cs
    else (acc, c :: cs)

/-- `std::stoi` as `main` uses it: skip leading whitespace, an optional
sign, then the longest run of digits; `.error` when no digit follows
(invalid_argument) or the value leaves the range of `int`
(out_of_range) — both are caught by the same handler.  Trailing
characters after the digits are ignored. -/
def stoi (s : String) : Except Unit Int :=
  let cs := s.toList.dropWhile (fun c => isSpaceChar c)
  let signed : Int × List Char :=
    match cs with
    | '-' :: rest => (-1, rest)
    | '+' :: rest => (1, rest)
    | _ => (1, cs)
  match signed.2 with
  | c :: _ =>
    if c.isDigit then
      let v : Int := signed.1 * ((digitsToNat 0 signed.2).1 : Int)
      if v < -2147483648 ∨ 2147483647 < v then .error () else .ok v
    else .error ()
  | [] => .error ()

/-- Tokenizer state of `split_command` (`iss >> std::quoted(token)`):
between tokens, inside a plain token, inside a quoted token, or right
after an escape character inside a quoted token. -/
inductive SplitMode where
  | ws : SplitMode
  | plain : SplitMode
  | quoted : SplitMode
  | escaped : SplitMode

/-- Character-level loop of `split_command`.  A token starting with a
double quote runs to the closing quote (a backslash escapes the next
character); any other token runs to the next whitespace.  A quote that
is never closed makes the extraction fail at end of input, so that
token (and nothing after it) is dropped, as in the `while (iss >> ...)`
loop. -/
def splitCmdGo : List Char → SplitMode → List Char → List String → List String
  | [], mode, acc, toks =>
    match mode with
    | .plain => (String.mk acc.reverse :: toks).reverse
    | _ => toks.reverse
  | c :: cs, mode, acc, toks =>
    match mode with
    | .ws =>
      if isSpaceChar c then splitCmdGo cs .ws [] toks
      else if c = '"' then splitCmdGo cs .quoted [] toks
      else splitCmdGo cs .plain [c] toks
    | .plain =>
      if isSpaceChar c then splitCmdGo cs .ws [] (String.mk acc.reverse :: toks)
      else splitCmdGo cs .plain (c :: acc) toks
    | .quoted =>
      if c = '"' then splitCmdGo cs .ws [] (String.mk acc.reverse :: toks)
      else if c = '\\' then splitCmdGo cs .escaped acc toks
      else splitCmdGo cs .quoted (c :: acc) toks
    | .escaped => splitCmdGo cs .quoted (c :: acc) toks

/-- `split_command` from `src/main.cpp`. -/
def split_command (command : String) : List String :=
  splitCmdGo command.toList .ws [] []

/-- A single-quote character, for messages that contain one. -/
def sq : String := Char.toString (Char.ofNat 39)

/-- The "unknown command" message of the final `else` branch. -/
def unknownMsg : String :=
  "Unknown command. Type " ++ sq ++ "help" ++ sq ++ " for available commands."

/-- The lines `show_help` prints. -/
def helpText : List String :=
  ["", "COMMAND LINE TASK MANAGER", "--------------------------", "USAGE:",
   "  add <description> [-p high|medium|low]  Add a new task",
   "  list                                    List all tasks",
   "  list pending                            List pending tasks only",
   "  done <id>                               Mark task as completed",
   "  delete <id>                             Delete a task",
   "  help                                    Show this help message",
   "  exit                                    Exit the program", "",
   "EXAMPLES:", "  add \"Buy groceries\" -p high", "  add \"Walk the dog\"",
   "  done 2", ""]

/-- The command dispatch of `main` for a non-exit command: returns the
new manager state, the lines printed, and the JSON documents written to
the backing file (one per `save_tasks` call). -/
def dispatch (m : TaskManager) (command : String) (args : List String) :
    TaskManager × List String × List Json :=
  if command = "help" then (m, helpText, [])
  else if command = "add" then
    match args with
    | [] => (m, [unknownMsg], [])
    | d :: rest =>
      let dp := addLoop rest d 2
      let m2 := add_task m dp.1 dp.2
      (m2, ["Task added with ID: " ++ toString m.next_id], [save_tasks m2])
  else if command = "list" then
    let show_completed : Bool :=
      match args with
      | a :: _ => !(a = "pending")
      | [] => true
    (m, list_tasks m show_completed, [])
  else if command = "done" then
    match args with
    | [t] =>
      match stoi t with
      | .ok id =>
        let r := mark_done m id
        if r.2 then (r.1, ["Task marked as completed!"], [save_tasks r.1])
        else (m, ["Task with ID " ++ toString id ++ " not found."], [])
      | .error _ => (m, ["Invalid task ID."], [])
    | _ => (m, [unknownMsg], [])
  else if command = "delete" then
    match args with
    | [t] =>
      match stoi t with
      | .ok id =>
        let r := delete_task m id
        if r.2 then (r.1, ["Task deleted successfully!!"], [save_tasks r.1])
        else (m, ["Task with ID " ++ toString id ++ " not found."], [])
      | .error _ => (m, ["Invalid task ID."], [])
    | _ => (m, [unknownMsg], [])
  else (m, [unknownMsg], [])

/-- Result of one iteration of the `while (true)` loop in `main`. -/
inductive StepResult where
  | next (m : TaskManager) (out : List String) (writes : List Json) : StepResult
  | exitLoop : StepResult
  | stuck : StepResult

/-- One iteration of the REPL on one input line: empty lines are
skipped before tokenizing; a line whose tokens are empty (whitespace
only) indexes `tokens[0]` out of bounds, which is undefined behaviour;
a first token `exit` leaves the loop; anything else is dispatched. -/
def replStep (m : TaskManager) (line : String) : StepResult :=
  if line = "" then .next m [] []
  else
    match split_command line with
    | [] => .stuck
    | command :: args =>
      if command = "exit" then .exitLoop
      else
        let r := dispatch m command args
        .next r.1 r.2.1 r.2.2

/-- Outcome of running the loop with a bounded number of iterations. -/
inductive ReplOutcome where
  | finished (m : TaskManager) : ReplOutcome
  | outOfFuel : ReplOutcome
  | stuck : ReplOutcome

/-- The REPL loop of `main`, fuelled by the number of iterations.  Once
the input lines are exhausted, every further `getline` fails at end of
input and leaves `line` empty (the C++11 semantics of a failed
`getline` after a newline-terminated input), so the loop keeps running
on empty lines. -/
def replRun : Nat → List String → TaskManager → ReplOutcome
  | 0, _, _ => .outOfFuel
  | fuel + 1, [], m =>
    match replStep m "" with
    | .next m2 _ _ => replRun fuel [] m2
    | .exitLoop => .finished m
    | .stuck => .stuck
  | fuel + 1, l :: ls, m =>
    match replStep m l with
    | .next m2 _ _ => replRun fuel ls m2
    | .exitLoop => .finished m
    | .stuck => .stuck

/-! ## Theorems -/

lemma split_command_nil : split_command "" = [] := rfl

/-- Claim C1, counterexample: on a store holding task 1, the line
`delete 1x` — two tokens whose second is an integer followed by trailing
non-digit characters — deletes task 1 and rewrites the backing file,
because `std::stoi` accepts the prefix `1`.  The claim predicts an
invalid-id report with no operation. -/
theorem C1_counterexample :
    split_command "delete 1x" = ["delete", "1x"] ∧
    replStep ⟨[⟨1, "a", false, 2⟩], 2⟩ "delete 1x"
      = .next ⟨[], 2⟩ ["Task deleted successfully!!"] [Json.null] :=
  ⟨rfl, rfl⟩

/-- Claim C1 (amended): a `done`/`delete` line whose id token makes
`std::stoi` throw — no digit after the optional whitespace and sign, or
a value outside the range of `int` — is reported as an invalid id, and
neither the task collection nor the backing file is touched.  (A token
with a valid integer prefix, such as `1x`, is instead treated as that
integer.) -/
theorem C1_invalid_id_rejected (m : TaskManager) (line t : String)
    (hsplit : split_command line = ["done", t] ∨ split_command line = ["delete", t])
    (hstoi : stoi t = .error ()) :
    replStep m line = .next m ["Invalid task ID."] [] := by
  have hline : line ≠ "" := by
    intro he
    rcases hsplit with h | h <;> rw [he, split_command_nil] at h <;> exact List.noConfusion h
  rcases hsplit with h | h <;> simp [replStep, hline, h, dispatch, hstoi]

/-- Witness for C1: the concrete line `done abc` on the empty store. -/
theorem C1_witness :
    (split_command "done abc" = ["done", "abc"] ∨
      split_command "done abc" = ["delete", "abc"]) ∧
    stoi "abc" = .error () ∧
    replStep ⟨[], 1⟩ "done abc" = .next ⟨[], 1⟩ ["Invalid task ID."] [] :=
  ⟨Or.inl rfl, rfl, C1_invalid_id_rejected ⟨[], 1⟩ "done abc" "abc" (Or.inl rfl) rfl⟩

/-- Claim C2: the loop does terminate at end-of-input — refuted by the
code.  Once standard input is exhausted, `std::getline` fails and
leaves `line` empty, the `line.empty()` check makes the loop continue,
and this repeats forever: however much fuel the loop is given on an
already-exhausted input, it never finishes. -/
theorem C2_eof_never_terminates :
    ∀ (fuel : Nat) (m : TaskManager), replRun fuel [] m = ReplOutcome.outOfFuel := by
  intro fuel
  induction fuel with
  | zero => intro m; rfl
  | succ n ih => intro m; simpa [replRun, replStep] using ih m

/-- Claim C3, counterexample: a store whose single task is completed is
non-empty, so `list pending` prints the header with an empty body
instead of reporting "No tasks found.". -/
theorem C3_counterexample :
    list_tasks ⟨[⟨1, "a", true, 2⟩], 2⟩ false = ["", "TASK LIST", "---------", ""] ∧
    "No tasks found." ∉ list_tasks ⟨[⟨1, "a", true, 2⟩], 2⟩ false := by
  refine ⟨rfl, ?_⟩
  decide

/-- Claim C3 (amended): the list operation reports "No tasks found."
exactly when the stored collection itself is empty, for either value of
`show_completed`; a non-empty store whose filtered result is empty
prints an empty task list under the header instead. -/
theorem C3_no_tasks_iff_empty (m : TaskManager) (b : Bool) :
    list_tasks m b = ["No tasks found."] ↔ m.tasks = [] := by
  unfold list_tasks
  split <;> simp_all

/-- Witness for C3: the empty store reports "No tasks found.". -/
theorem C3_witness :
    list_tasks ⟨[], 1⟩ true = ["No tasks found."] ↔ (⟨[], 1⟩ : TaskManager).tasks = [] :=
  C3_no_tasks_iff_empty ⟨[], 1⟩ true

lemma foldl_jsonPush (l : List Task) (acc : List Json) :
    l.foldl (fun j t => jsonPush j t.to_json) (Json.arr acc)
      = Json.arr (acc ++ l.map Task.to_json) := by
  induction l generalizing acc with
  | nil => simp
  | cons t ts ih =>
    have h1 : (t :: ts).foldl (fun j t => jsonPush j t.to_json) (Json.arr acc)
        = ts.foldl (fun j t => jsonPush j t.to_json) (Json.arr (acc ++ [t.to_json])) := rfl
    rw [h1, ih]
    simp

lemma save_tasks_eq (m : TaskManager) :
    save_tasks m = if m.tasks = [] then Json.null
      else Json.arr (m.tasks.map Task.to_json) := by
  match h : m.tasks with
  | [] => unfold save_tasks; rw [h]; rfl
  | t :: ts =>
    unfold save_tasks
    rw [h, if_neg (List.cons_ne_nil t ts)]
    have h1 : List.foldl (fun j t => jsonPush j t.to_json) Json.null (t :: ts)
        = List.foldl (fun j t => jsonPush j t.to_json) (Json.arr [t.to_json]) ts := rfl
    rw [h1, foldl_jsonPush]
    simp

/-- Claim C4, counterexample: persisting the empty collection writes
the JSON document `null`, not an empty array — `json j;` default
constructs a null value and no `push_back` ever turns it into an
array. -/
theorem C4_counterexample :
    save_tasks ⟨[], 1⟩ = Json.null ∧ save_tasks ⟨[], 1⟩ ≠ Json.arr [] :=
  ⟨rfl, fun h => Json.noConfusion ((rfl : save_tasks ⟨[], 1⟩ = Json.null) ▸ h)⟩

/-- Claim C4 (amended): every persist of a non-empty collection writes
a JSON array with one object per task, each object carrying exactly the
keys id (integer), description (string), completed (boolean) and
priority (integer); the empty collection is written as the JSON
document `null` — in particular the file created on first startup, when
no backing file exists, contains `null` rather than an empty array. -/
theorem C4_persist_format (m : TaskManager) :
    (m.tasks = [] → save_tasks m = Json.null) ∧
    (m.tasks ≠ [] → save_tasks m = Json.arr (m.tasks.map Task.to_json)) ∧
    (∀ t : Task, t.to_json = Json.obj
      [("id", Json.int t.id), ("description", Json.str t.description),
       ("completed", Json.bool t.completed), ("priority", Json.int t.priority)]) ∧
    (∀ t : Task, t.to_json.keysOf = some ["id", "description", "completed", "priority"]) ∧
    (startup none).2 = [Json.null] := by
  refine ⟨fun h => ?_, fun h => ?_, fun t => rfl, fun t => rfl, rfl⟩
  · rw [save_tasks_eq, if_pos h]
  · rw [save_tasks_eq, if_neg h]

/-- Witness for C4: a one-task store persists as a one-object array. -/
theorem C4_witness :
    ((⟨[⟨1, "a", false, 2⟩], 2⟩ : TaskManager).tasks ≠ []) ∧
    save_tasks ⟨[⟨1, "a", false, 2⟩], 2⟩
      = Json.arr ((⟨[⟨1, "a", false, 2⟩], 2⟩ : TaskManager).tasks.map Task.to_json) :=
  ⟨by decide, (C4_persist_format ⟨[⟨1, "a", false, 2⟩], 2⟩).2.1 (by decide)⟩

lemma from_json_to_json (t : Task) : Task.from_json t.to_json = .ok t := rfl

/-- The `next_id` recomputation the load loop performs over the loaded
tasks (`if (task.id >= next_id) next_id = task.id + 1`). -/
def foldNext (nid : Int) (ts : List Task) : Int :=
  ts.foldl (fun n t => if n ≤ t.id then t.id + 1 else n) nid

lemma loadItems_map (ts : List Task) (nid : Int) (acc : List Task) :
    loadItems (ts.map Task.to_json) nid acc = ⟨acc ++ ts, foldNext nid ts⟩ := by
  induction ts generalizing nid acc with
  | nil => simp [loadItems, foldNext]
  | cons t rest ih =>
    have h1 : loadItems ((t :: rest).map Task.to_json) nid acc
        = loadItems (rest.map Task.to_json)
            (if nid ≤ t.id then t.id + 1 else nid) (acc ++ [t]) := by
      simp [loadItems, from_json_to_json]
    rw [h1, ih]
    simp [foldNext]

lemma foldNext_le (ts : List Task) : ∀ nid : Int, nid ≤ foldNext nid ts := by
  induction ts with
  | nil => intro nid; simp [foldNext]
  | cons t rest ih =>
    intro nid
    have h2 := ih (if nid ≤ t.id then t.id + 1 else nid)
    have h3 : nid ≤ (if nid ≤ t.id then t.id + 1 else nid) := by split <;> omega
    have h4 : foldNext nid (t :: rest)
        = foldNext (if nid ≤ t.id then t.id + 1 else nid) rest := rfl
    rw [h4]
    exact le_trans h3 h2

lemma foldNext_gt (ts : List Task) : ∀ (nid : Int) (t : Task), t ∈ ts →
    t.id < foldNext nid ts := by
  induction ts with
  | nil => intro _ _ h; cases h
  | cons u rest ih =>
    intro nid t ht
    have h4 : foldNext nid (u :: rest)
        = foldNext (if nid ≤ u.id then u.id + 1 else nid) rest := rfl
    rcases List.mem_cons.mp ht with h | h
    · subst h
      have h3 : t.id < (if nid ≤ t.id then t.id + 1 else nid) := by split <;> omega
      have h2 := foldNext_le rest (if nid ≤ t.id then t.id + 1 else nid)
      rw [h4]
      exact lt_of_lt_of_le h3 h2
    · rw [h4]
      exact ih _ t h

/-- Claim C6: persisting a non-empty collection and constructing a
fresh manager on the same file reproduces exactly the same tasks (ids,
descriptions, completion flags, priorities, even the order), and the
fresh manager's `next_id` is strictly greater than every loaded id —
in particular greater than the maximum loaded id. -/
theorem C6_round_trip (m : TaskManager) (h : m.tasks ≠ []) :
    (load_tasks (.ok (save_tasks m))).tasks = m.tasks ∧
    (load_tasks (.ok (save_tasks m))).tasks.all
      (fun t => decide (t.id < (load_tasks (.ok (save_tasks m))).next_id)) = true := by
  have hs : save_tasks m = Json.arr (m.tasks.map Task.to_json) := by
    rw [save_tasks_eq, if_neg h]
  have hl : load_tasks (.ok (save_tasks m)) = ⟨m.tasks, foldNext 1 m.tasks⟩ := by
    rw [hs]
    show loadItems (Json.arr (m.tasks.map Task.to_json)).items 1 [] = _
    simpa [Json.items] using loadItems_map m.tasks 1 []
  rw [hl]
  refine ⟨rfl, ?_⟩
  simp only [List.all_eq_true, decide_eq_true_eq]
  intro t ht
  exact foldNext_gt m.tasks 1 t ht

/-- Witness for C6: a concrete two-task store with non-contiguous ids
round-trips through the backing file. -/
theorem C6_witness :
    (load_tasks (.ok (save_tasks ⟨[⟨1, "a", false, 2⟩, ⟨5, "b", true, 1⟩], 9⟩))).tasks
      = (⟨[⟨1, "a", false, 2⟩, ⟨5, "b", true, 1⟩], 9⟩ : TaskManager).tasks ∧
    (load_tasks (.ok (save_tasks ⟨[⟨1, "a", false, 2⟩, ⟨5, "b", true, 1⟩], 9⟩))).tasks.all
      (fun t => decide (t.id <
        (load_tasks (.ok (save_tasks
          ⟨[⟨1, "a", false, 2⟩, ⟨5, "b", true, 1⟩], 9⟩))).next_id)) = true :=
  C6_round_trip ⟨[⟨1, "a", false, 2⟩, ⟨5, "b", true, 1⟩], 9⟩ (by decide)

lemma loadItems_failure : ∀ (l : List Json) (nid : Int) (acc : List Task),
    (∃ x ∈ l, Task.from_json x = .error ()) → loadItems l nid acc = ⟨[], 1⟩ := by
  intro l
  induction l with
  | nil => intro nid acc h; simp at h
  | cons j rest ih =>
    intro nid acc h
    match hj : Task.from_json j with
    | .error e => simp [loadItems, hj]
    | .ok t =>
      have h2 : ∃ x ∈ rest, Task.from_json x = .error () := by
        rcases h with ⟨x, hx, hxe⟩
        rcases List.mem_cons.mp hx with rfl | hxr
        · rw [hj] at hxe; exact Except.noConfusion hxe
        · exact ⟨x, hxr, hxe⟩
      simp [loadItems, hj, ih _ _ h2]

/-- Claim C9: a backing file whose content does not parse as JSON, or
whose parsed content holds any record that fails to convert to a task,
loads as the empty store with the id counter reset to 1 — the catch
handler clears everything, so the collection is never left holding a
prefix of the records. -/
theorem C9_invalid_load_resets :
    load_tasks (Except.error ()) = ⟨[], 1⟩ ∧
    ∀ j : Json, (∃ x ∈ j.items, Task.from_json x = .error ()) →
      load_tasks (Except.ok j) = ⟨[], 1⟩ := by
  refine ⟨rfl, fun j h => ?_⟩
  show loadItems j.items 1 [] = _
  exact loadItems_failure j.items 1 [] h

/-- Witness for C9: a file holding the JSON array `[5]`, whose single
element is not a task record. -/
theorem C9_witness :
    load_tasks (Except.ok (Json.arr [Json.int 5])) = ⟨[], 1⟩ :=
  C9_invalid_load_resets.2 (Json.arr [Json.int 5])
    ⟨Json.int 5, by simp [Json.items], rfl⟩

/-- A sequence of `add_task` calls (description and priority each),
collecting the assigned ids in call order. -/
def runAdds : TaskManager → List (String × Int) → TaskManager × List Int
  | m, [] => (m, [])
  | m, op :: ops =>
    let r := runAdds (add_task m op.1 op.2) ops
    (r.1, m.next_id :: r.2)

/-- The id invariant: every stored id is strictly below the counter,
so the next assigned id is strictly greater than every stored id. -/
def idsBelowNext (m : TaskManager) : Bool :=
  m.tasks.all (fun t => decide (t.id < m.next_id))

lemma idsBelowNext_iff (m : TaskManager) :
    idsBelowNext m = true ↔ ∀ t ∈ m.tasks, t.id < m.next_id := by
  unfold idsBelowNext
  simp [List.all_eq_true]

lemma runAdds_ids : ∀ (ops : List (String × Int)) (m : TaskManager),
    (runAdds m ops).2 = (List.range ops.length).map (fun i : Nat => m.next_id + (i : Int)) := by
  intro ops
  induction ops with
  | nil => intro m; rfl
  | cons op rest ih =>
    intro m
    have h1 : (runAdds m (op :: rest)).2
        = m.next_id :: (runAdds (add_task m op.1 op.2) rest).2 := rfl
    rw [h1, ih]
    have h2 : (add_task m op.1 op.2).next_id = m.next_id + 1 := rfl
    rw [h2, List.length_cons, List.range_succ_eq_map, List.map_cons, List.map_map]
    congr 1
    · simp
    · refine List.map_congr_left fun i hi => ?_
      simp only [Function.comp_apply]
      push_cast
      ring

lemma idsBelowNext_add (m : TaskManager) (d : String) (p : Int)
    (h : idsBelowNext m = true) : idsBelowNext (add_task m d p) = true := by
  rw [idsBelowNext_iff] at h ⊢
  intro t ht
  have hn : (add_task m d p).next_id = m.next_id + 1 := rfl
  rw [hn]
  rcases List.mem_append.mp ht with h1 | h1
  · have := h t h1; omega
  · have : t = ⟨m.next_id, d, false, p⟩ := List.mem_singleton.mp h1
    rw [this]
    show m.next_id < m.next_id + 1
    omega

lemma markFirst_map_id : ∀ (ts : List Task) (i : Int) (ts2 : List Task),
    markFirst i ts = some ts2 → ts2.map Task.id = ts.map Task.id := by
  intro ts
  induction ts with
  | nil => intro i ts2 h; exact Option.noConfusion h
  | cons t rest ih =>
    intro i ts2 h
    by_cases ht : t.id = i
    · simp [markFirst, ht] at h
      rw [← h]
      simp [ht]
    · cases hrest : markFirst i rest with
      | none => simp [markFirst, ht, hrest] at h
      | some ts3 =>
        simp [markFirst, ht, hrest] at h
        rw [← h]
        simp [ih i ts3 hrest]

lemma idsBelowNext_mark (m : TaskManager) (i : Int)
    (h : idsBelowNext m = true) : idsBelowNext (mark_done m i).1 = true := by
  cases hmf : markFirst i m.tasks with
  | none => simpa [mark_done, hmf] using h
  | some ts2 =>
    rw [idsBelowNext_iff] at h
    have hmd : (mark_done m i).1 = ⟨ts2, m.next_id⟩ := by simp [mark_done, hmf]
    rw [hmd, idsBelowNext_iff]
    intro t ht
    have hidmem : t.id ∈ ts2.map Task.id := List.mem_map_of_mem Task.id ht
    rw [markFirst_map_id m.tasks i ts2 hmf] at hidmem
    rcases List.mem_map.mp hidmem with ⟨u, hu, hid⟩
    rw [← hid]
    exact h u hu

lemma idsBelowNext_delete (m : TaskManager) (i : Int)
    (h : idsBelowNext m = true) : idsBelowNext (delete_task m i).1 = true := by
  unfold delete_task
  split_ifs with hf
  · rw [idsBelowNext_iff] at h ⊢
    intro t ht
    exact h t (List.mem_of_mem_filter ht)
  · exact h

lemma idsBelowNext_dispatch (m : TaskManager) (c : String) (args : List String)
    (h : idsBelowNext m = true) : idsBelowNext (dispatch m c args).1 = true := by
  unfold dispatch
  split_ifs with h1 h2 h3 h4 h5
  · exact h
  · cases args with
    | nil => exact h
    | cons d rest => exact idsBelowNext_add m _ _ h
  · exact h
  · cases args with
    | nil => exact h
    | cons t rest =>
      cases rest with
      | cons _ _ => exact h
      | nil =>
        cases hs : stoi t with
        | error e => simp only [hs]; exact h
        | ok id =>
          simp only [hs]
          by_cases hf : (mark_done m id).2
          · simp only [hf, if_true]
            exact idsBelowNext_mark m id h
          · simp only [hf, if_false]
            exact h
  · cases args with
    | nil => exact h
    | cons t rest =>
      cases rest with
      | cons _ _ => exact h
      | nil =>
        cases hs : stoi t with
        | error e => simp only [hs]; exact h
        | ok id =>
          simp only [hs]
          by_cases hf : (delete_task m id).2
          · simp only [hf, if_true]
            exact idsBelowNext_delete m id h
          · simp only [hf, if_false]
            exact h
  · exact h

lemma loadItems_idsBelow : ∀ (l : List Json) (nid : Int) (acc : List Task),
    (∀ t ∈ acc, t.id < nid) → idsBelowNext (loadItems l nid acc) = true := by
  intro l
  induction l with
  | nil =>
    intro nid acc h
    rw [idsBelowNext_iff]
    exact h
  | cons j rest ih =>
    intro nid acc h
    match hj : Task.from_json j with
    | .error e => simp only [loadItems, hj]; rfl
    | .ok t =>
      simp only [loadItems, hj]
      apply ih
      intro u hu
      rcases List.mem_append.mp hu with h1 | h1
      · have := h u h1
        split <;> omega
      · have : u = t := List.mem_singleton.mp h1
        rw [this]
        split <;> omega

/-- Claim C5: on a freshly constructed manager (empty backing state,
counter at 1) any sequence of adds is assigned exactly the ids
1, 2, 3, ... in order, whatever each call's priority argument; and after
a load from any file content — as well as across every dispatched
command — every stored id stays strictly below the counter, so each
newly assigned id is strictly greater than every id already stored. -/
theorem C5_id_assignment :
    (∀ ops : List (String × Int),
      (runAdds ⟨[], 1⟩ ops).2
        = (List.range ops.length).map (fun i : Nat => (1 : Int) + (i : Int))) ∧
    (∀ f : Except Unit Json, idsBelowNext (load_tasks f) = true) ∧
    (∀ (m : TaskManager) (c : String) (args : List String),
      idsBelowNext m = true → idsBelowNext (dispatch m c args).1 = true) := by
  refine ⟨fun ops => runAdds_ids ops ⟨[], 1⟩, fun f => ?_,
    fun m c args h => idsBelowNext_dispatch m c args h⟩
  cases f with
  | error e => rfl
  | ok j =>
    show idsBelowNext (loadItems j.items 1 []) = true
    exact loadItems_idsBelow j.items 1 [] (by intro t ht; cases ht)

/-- Witness for C5: two adds on the fresh manager get ids 1 and 2, and
an `add` command on a store satisfying the invariant preserves it. -/
theorem C5_witness :
    (runAdds ⟨[], 1⟩ [("a", 1), ("b", 3)]).2
      = (List.range 2).map (fun i : Nat => (1 : Int) + (i : Int)) ∧
    idsBelowNext (dispatch ⟨[⟨1, "a", false, 2⟩], 2⟩ "add" ["x"]).1 = true :=
  ⟨C5_id_assignment.1 [("a", 1), ("b", 3)],
   C5_id_assignment.2.2 ⟨[⟨1, "a", false, 2⟩], 2⟩ "add" ["x"] (by decide)⟩

/-- The rows `list_tasks` prints for a given `show_completed` flag: the
sorted copy with completed tasks skipped when the flag is false. -/
def listedRows (m : TaskManager) (b : Bool) : List Task :=
  (sortTasks m.tasks).filter (fun t => b || !t.completed)

/-- Claim C7: with `show_completed` the listed rows are a permutation
of the whole stored collection, sorted by priority ascending then id
ascending; without it they are that same sorted sequence with every
completed task removed; and the `list` command leaves the manager state
— hence the stored order — untouched and writes nothing to the backing
file.  When the store is non-empty the printed lines are exactly the
header followed by the rendered rows. -/
theorem C7_list_view (m : TaskManager) :
    (listedRows m true).Perm m.tasks ∧
    List.Sorted taskLe (listedRows m true) ∧
    listedRows m false = (listedRows m true).filter (fun t => !t.completed) ∧
    (∀ args : List String,
      (dispatch m "list" args).1 = m ∧ (dispatch m "list" args).2.2 = []) ∧
    (∀ b : Bool, m.tasks = [] ∨
      list_tasks m b
        = "" :: "TASK LIST" :: "---------" :: (listedRows m b).map renderTask ++ [""]) := by
  have hsort : listedRows m true = sortTasks m.tasks := by
    simp [listedRows]
  refine ⟨?_, ?_, ?_, ?_, ?_⟩
  · rw [hsort]
    exact List.perm_insertionSort taskLe m.tasks
  · rw [hsort]
    exact List.sorted_insertionSort taskLe m.tasks
  · rw [hsort]
    simp [listedRows]
  · intro args
    constructor <;> simp [dispatch]
  · intro b
    by_cases he : m.tasks = []
    · exact Or.inl he
    · refine Or.inr ?_
      unfold list_tasks
      rw [if_neg he]
      rfl

lemma filter_ne_length : ∀ (l : List Task) (i : Int),
    (l.map Task.id).Nodup → l.any (fun t => t.id = i) = true →
    (l.filter (fun t => t.id ≠ i)).length + 1 = l.length := by
  intro l
  induction l with
  | nil => intro i _ h2; simp at h2
  | cons t rest ih =>
    intro i h1 h2
    rw [List.map_cons, List.nodup_cons] at h1
    by_cases ht : t.id = i
    · have hrest : ∀ u ∈ rest, ¬(u.id = i) := by
        intro u hu he
        exact h1.1 (by rw [ht, ← he]; exact List.mem_map_of_mem Task.id hu)
      have hfilter : rest.filter (fun t => t.id ≠ i) = rest := by
        rw [List.filter_eq_self]
        intro u hu
        simpa using hrest u hu
      simp only [List.filter_cons]
      rw [if_neg (by simp [ht]), hfilter, List.length_cons]
    · have h2' : rest.any (fun t => t.id = i) = true := by
        simpa [List.any_cons, ht] using h2
      have h3 := ih i h1.2 h2'
      simp only [List.filter_cons]
      rw [if_pos (by simpa using ht)]
      simp only [List.length_cons]
      omega

/-- Claim C8, counterexample: the backing file can hold two records
with the same id (the loader performs no uniqueness check), and then a
single `delete 1` removes both tasks, not exactly one — `remove_if`
erases every match. -/
theorem C8_counterexample :
    (load_tasks (.ok (Json.arr [Task.to_json ⟨1, "a", false, 2⟩,
        Task.to_json ⟨1, "b", false, 2⟩]))).tasks.length = 2 ∧
    (delete_task (load_tasks (.ok (Json.arr [Task.to_json ⟨1, "a", false, 2⟩,
        Task.to_json ⟨1, "b", false, 2⟩]))) 1).1.tasks.length = 0 :=
  ⟨rfl, rfl⟩

lemma delete_task_not_found (m2 : TaskManager) (i : Int)
    (h : m2.tasks.any (fun t => t.id = i) = false) :
    delete_task m2 i = (m2, false) := by
  unfold delete_task
  rw [h]
  simp

/-- Claim C8 (amended): on a store whose ids are pairwise distinct and
which contains a task with the given id, `delete` succeeds, removes
exactly that one task, leaves every other task unchanged in its
relative order, leaves the id counter alone, and a second `delete` with
the same id reports not-found and changes nothing. -/
theorem C8_delete_by_id (m : TaskManager) (i : Int)
    (hnodup : (m.tasks.map Task.id).Nodup)
    (hmem : m.tasks.any (fun t => t.id = i) = true) :
    (delete_task m i).2 = true ∧
    (delete_task m i).1.tasks = m.tasks.filter (fun t => t.id ≠ i) ∧
    (delete_task m i).1.tasks.length + 1 = m.tasks.length ∧
    (delete_task m i).1.next_id = m.next_id ∧
    delete_task (delete_task m i).1 i = ((delete_task m i).1, false) := by
  have hdel : delete_task m i
      = (⟨m.tasks.filter (fun t => t.id ≠ i), m.next_id⟩, true) := by
    unfold delete_task
    rw [if_pos hmem]
  refine ⟨by rw [hdel], by rw [hdel], ?_, by rw [hdel], ?_⟩
  · rw [hdel]
    exact filter_ne_length m.tasks i hnodup hmem
  · rw [hdel]
    apply delete_task_not_found
    simp

/-- Witness for C8: deleting id 1 from a two-task store with distinct
ids. -/
theorem C8_witness :
    (delete_task ⟨[⟨1, "a", false, 2⟩, ⟨2, "b", true, 1⟩], 3⟩ 1).2 = true ∧
    (delete_task ⟨[⟨1, "a", false, 2⟩, ⟨2, "b", true, 1⟩], 3⟩ 1).1.tasks
      = (⟨[⟨1, "a", false, 2⟩, ⟨2, "b", true, 1⟩], 3⟩ : TaskManager).tasks.filter
          (fun t => t.id ≠ 1) ∧
    (delete_task ⟨[⟨1, "a", false, 2⟩, ⟨2, "b", true, 1⟩], 3⟩ 1).1.tasks.length + 1
      = (⟨[⟨1, "a", false, 2⟩, ⟨2, "b", true, 1⟩], 3⟩ : TaskManager).tasks.length ∧
    (delete_task ⟨[⟨1, "a", false, 2⟩, ⟨2, "b", true, 1⟩], 3⟩ 1).1.next_id
      = (⟨[⟨1, "a", false, 2⟩, ⟨2, "b", true, 1⟩], 3⟩ : TaskManager).next_id ∧
    delete_task (delete_task ⟨[⟨1, "a", false, 2⟩, ⟨2, "b", true, 1⟩], 3⟩ 1).1 1
      = ((delete_task ⟨[⟨1, "a", false, 2⟩, ⟨2, "b", true, 1⟩], 3⟩ 1).1, false) :=
  C8_delete_by_id ⟨[⟨1, "a", false, 2⟩, ⟨2, "b", true, 1⟩], 3⟩ 1 (by decide) (by decide)

/-- Claim C10, counterexample: in `add x -p -p` the final `-p` token is
consumed as the value of the preceding `-p` flag (yielding MEDIUM via
`parse_priority`), so it is not appended to the description; and in
`add x -p high -p` the trailing `-p` is appended but the task gets HIGH
priority from the earlier flag, not the default MEDIUM. -/
theorem C10_counterexample :
    (dispatch ⟨[], 1⟩ "add" ["x", "-p", "-p"]).1.tasks = [⟨1, "x", false, 2⟩] ∧
    (dispatch ⟨[], 1⟩ "add" ["x", "-p", "high", "-p"]).1.tasks
      = [⟨1, "x -p", false, 1⟩] :=
  ⟨rfl, rfl⟩

lemma addLoop_trailing : ∀ (l : List String) (desc : String) (prio : Int),
    "-p" ∉ l →
    addLoop (l ++ ["-p"]) desc prio
      = (l.foldl (fun a tok => a ++ " " ++ tok) desc ++ " " ++ "-p", prio) := by
  intro l
  induction l with
  | nil => intro desc prio _; rfl
  | cons tok l2 ih =>
    intro desc prio h
    have htok : ¬(tok = "-p") := fun he => h (he ▸ List.mem_cons_self tok l2)
    cases hl2 : l2 ++ ["-p"] with
    | nil => exact absurd hl2 (by simp)
    | cons v rest2 =>
      have h1 : addLoop ((tok :: l2) ++ ["-p"]) desc prio
          = addLoop (v :: rest2) (desc ++ " " ++ tok) prio := by
        show addLoop (tok :: (l2 ++ ["-p"])) desc prio = _
        rw [hl2]
        simp [addLoop, htok]
      rw [h1, ← hl2,
        ih (desc ++ " " ++ tok) prio (fun hm => h (List.mem_cons_of_mem tok hm))]
      simp

/-- Claim C10 (amended): when the `-p` token in the last position is the
only `-p` among the tokens after the leading description token, it is
not treated as a priority flag: the literal string "-p" is appended to
the space-joined description and the task is created with the default
MEDIUM priority (2).  In general a `-p` sets the priority only when it
is in flag position and another token follows it. -/
theorem C10_trailing_dash_p (m : TaskManager) (d : String) (rest : List String)
    (h : "-p" ∉ rest) :
    (dispatch m "add" (d :: (rest ++ ["-p"]))).1.tasks
      = m.tasks ++ [⟨m.next_id,
          rest.foldl (fun a tok => a ++ " " ++ tok) d ++ " " ++ "-p", false, 2⟩] := by
  have h1 := addLoop_trailing rest d 2 h
  simp [dispatch, h1, add_task]

/-- Witness for C10: `add x -p` appends "-p" to the description and
keeps the default MEDIUM priority. -/
theorem C10_witness :
    (dispatch ⟨[], 1⟩ "add" ("x" :: ([] ++ ["-p"]))).1.tasks
      = (⟨[], 1⟩ : TaskManager).tasks ++ [⟨(⟨[], 1⟩ : TaskManager).next_id,
          List.foldl (fun a tok => a ++ " " ++ tok) "x" [] ++ " " ++ "-p", false, 2⟩] :=
  C10_trailing_dash_p ⟨[], 1⟩ "x" [] (by decide)

end Todo
